import Mathlib

/-!
Shallow embedding of the asynchronous download-job queue of the
`cuet-micro-ops-hackthon-2025` service: the BullMQ worker's per-job
processing loop (`processDownloadJob` in `src/queue.ts`), the queue
configuration, and the HTTP handlers for job submission
(`/v1/download/initiate`) and status polling (`/v1/download/jobs/:jobId`)
from `src/index.ts`.  JavaScript numbers are modelled as `Nat` (all the
quantities involved are non-negative integers; `Math.floor` of a
non-negative real division is `Nat` division), promises are unfolded into
pure sequential code, and the `crypto.randomUUID()` token generator is an
injected sequence `tokens : Nat → String`.
-/

/-- Mock availability check used by the worker
(`const available = fileId % 7 === 0;`, queue.ts line 976). -/
def mockAvailable (fileId : Nat) : Bool := fileId % 7 == 0

/-- S3 key built for a successful file
(`const s3Key = ` followed by `downloads/<fileId>.zip`, queue.ts line 980). -/
def s3KeyFor (fileId : Nat) : String := "downloads/" ++ toString fileId ++ ".zip"

/-- Download URL built for a successful file, with the random UUID token
injected as a parameter (queue.ts line 981). -/
def downloadUrl (fileId : Nat) (token : String) : String :=
  "https://storage.example.com/" ++ s3KeyFor fileId ++ "?token=" ++ token

/-- Progress reported for the (0-based) item `i` of `n`:
`Math.floor(((i + 1) / totalFiles) * 100)` (queue.ts line 960),
i.e. the floor of the exact rational, which for naturals is `Nat` division. -/
def progressAt (i n : Nat) : Nat := ((i + 1) * 100) / n

/-- Status tag stored inside a job result (queue.ts `DownloadJobResultSchema`). -/
inductive ResultStatus
  | completed
  | failed
deriving DecidableEq, Repr

/-- Result object returned by the worker and stored as the job's return
value (queue.ts `DownloadJobResultSchema`, lines 875-882). -/
structure DownloadJobResult where
  status : ResultStatus
  totalFiles : Nat
  successCount : Nat
  failedCount : Nat
  downloadUrls : Option (List String)
  message : String
deriving DecidableEq, Repr

/-- Worker-local accumulator of the per-job loop: the mutable variables
`successCount`, `failedCount` and `downloadUrls` of `processDownloadJob`
(queue.ts lines 953-955). -/
structure LoopAcc where
  successCount : Nat
  failedCount : Nat
  downloadUrls : List String
deriving DecidableEq, Repr

/-- Initial accumulator (`let successCount = 0; let failedCount = 0;
const downloadUrls = [];`). -/
def LoopAcc.init : LoopAcc :=
  { successCount := 0, failedCount := 0, downloadUrls := [] }

/-- Observable actions of one loop iteration, in program order: the
`job.updateProgress(progress)` call and the availability check with its
outcome. -/
inductive WorkerEvent
  | updateProgress (progress : Nat)
  | check (fileId : Nat) (available : Bool)
deriving DecidableEq, Repr

/-- Accumulator update for one item given the availability outcome
(queue.ts lines 978-991): on success, increment `successCount` and push the
download URL; on failure, increment `failedCount`.  `i` is the 0-based loop
index, used to pick the injected UUID token. -/
def applyItem (tokens : Nat → String) (i fileId : Nat) (available : Bool)
    (acc : LoopAcc) : LoopAcc :=
  if available then
    { acc with
      successCount := acc.successCount + 1,
      downloadUrls := acc.downloadUrls ++ [downloadUrl fileId (tokens i)] }
  else
    { acc with failedCount := acc.failedCount + 1 }

/-- Per-item accumulator update with the worker's own (total, mock)
availability check. -/
def stepItemAcc (tokens : Nat → String) (i fileId : Nat) (acc : LoopAcc) : LoopAcc :=
  applyItem tokens i fileId (mockAvailable fileId) acc

/-- The worker's per-item loop (queue.ts lines 958-992), returning the final
accumulator together with the trace of observable events.  Each iteration
first computes and reports the progress `floor(((i+1)/n)*100)` and then
(after the simulated delay) performs the availability check and records the
outcome — in that program order. -/
def runItems (tokens : Nat → String) (n : Nat) :
    List Nat → Nat → LoopAcc → LoopAcc × List WorkerEvent
  | [], _, acc => (acc, [])
  | fileId :: rest, i, acc =>
    let progress := progressAt i n
    let available := mockAvailable fileId
    let acc' := stepItemAcc tokens i fileId acc
    let tail := runItems tokens n rest (i + 1) acc'
    (tail.1, WorkerEvent.updateProgress progress :: WorkerEvent.check fileId available :: tail.2)

/-- Final result object built after the loop (queue.ts lines 994-1004). -/
def mkResult (totalFiles : Nat) (acc : LoopAcc) : DownloadJobResult :=
  { status := if acc.successCount > 0 then ResultStatus.completed else ResultStatus.failed
    totalFiles := totalFiles
    successCount := acc.successCount
    failedCount := acc.failedCount
    downloadUrls := if acc.successCount > 0 then some acc.downloadUrls else none
    message :=
      if acc.successCount > 0 then
        "Successfully processed " ++ toString acc.successCount ++ "/" ++
          toString totalFiles ++ " files"
      else
        "All " ++ toString totalFiles ++ " files failed to process" }

/-- The worker's processor `processDownloadJob` (queue.ts lines 943-1011):
run the per-item loop over the job's file ids and return the result object.
The processor returns its result in every case (business failures are
accumulated, never thrown). -/
def processDownloadJob (tokens : Nat → String) (file_ids : List Nat) : DownloadJobResult :=
  mkResult file_ids.length (runItems tokens file_ids.length file_ids 0 LoopAcc.init).1

/-- Event trace of one processor run. -/
def workerEvents (tokens : Nat → String) (file_ids : List Nat) : List WorkerEvent :=
  (runItems tokens file_ids.length file_ids 0 LoopAcc.init).2

/-! ## Job records and the queue-level state machine

A `JobRecord` models the queue's view of one job: the BullMQ state
(`waiting`/`delayed` collapse to `queued`, exactly as the status handler
does), the last reported progress, the stored return value, and — as ghost
state — how many items the worker has processed and its local accumulator.
-/

/-- Queue-level job state as distinguished by the status handler
(index.ts lines 747-756): `completed`, `failed`, `active`, everything else
reported as queued. -/
inductive BState
  | queued
  | active
  | completed
  | failed
deriving DecidableEq, Repr

/-- One job record held by the queue. -/
structure JobRecord where
  fileIds : List Nat
  state : BState
  progress : Nat
  done : Nat
  acc : LoopAcc
  returnvalue : Option DownloadJobResult
deriving DecidableEq, Repr

/-- Record created when a job is added to the queue: state queued,
progress 0, nothing processed, no return value. -/
def initRecord (fileIds : List Nat) : JobRecord :=
  { fileIds := fileIds, state := BState.queued, progress := 0, done := 0,
    acc := LoopAcc.init, returnvalue := none }

/-- One worker loop iteration as a record update: report the progress of
item `done` and fold the item into the accumulator. -/
def stepItem (tokens : Nat → String) (r : JobRecord) : JobRecord :=
  { r with
    progress := progressAt r.done r.fileIds.length,
    acc := stepItemAcc tokens r.done (r.fileIds.getD r.done 0) r.acc,
    done := r.done + 1 }

/-- Job finalization.  The processor returns its result object for both
business outcomes (it never throws for per-item failures), so the queue
marks the job `completed` and stores the returned object as the job's
`returnvalue` — including when that object carries `status: "failed"`. -/
def finishRecord (r : JobRecord) : JobRecord :=
  { r with
    state := BState.completed,
    returnvalue := some (mkResult r.fileIds.length r.acc) }

/-- Small-step transition relation of one job's lifecycle: a worker claims a
queued job (state becomes active), processes its items one by one, and
finalizes it after the last item. -/
inductive Step (tokens : Nat → String) : JobRecord → JobRecord → Prop
  | claim (r : JobRecord) : r.state = BState.queued →
      Step tokens r { r with state := BState.active }
  | item (r : JobRecord) : r.state = BState.active → r.done < r.fileIds.length →
      Step tokens r (stepItem tokens r)
  | finish (r : JobRecord) : r.state = BState.active → r.done = r.fileIds.length →
      Step tokens r (finishRecord r)

/-- Reachability between job records under worker steps. -/
abbrev Reachable (tokens : Nat → String) : JobRecord → JobRecord → Prop :=
  Relation.ReflTransGen (Step tokens)

/-! ## The HTTP handlers -/

/-- Body of a successful status poll (index.ts `JobStatusResponseSchema`). -/
structure JobStatusResponse where
  jobId : String
  status : String
  progress : Nat
  totalFiles : Nat
  result : Option DownloadJobResult
deriving DecidableEq, Repr

/-- Projection of a job record into the external polling contract
(index.ts lines 741-768): map the queue state to the external status
string, echo the recorded progress, and attach the return value only for
the two terminal statuses. -/
def projectJob (jobId : String) (r : JobRecord) : JobStatusResponse :=
  let status :=
    if r.state = BState.completed then "completed"
    else if r.state = BState.failed then "failed"
    else if r.state = BState.active then "processing"
    else "queued"
  { jobId := jobId
    status := status
    progress := r.progress
    totalFiles := r.fileIds.length
    result := if status = "completed" ∨ status = "failed" then r.returnvalue else none }

/-- Outcome of the status route (index.ts lines 723-769): 404-style
not-found when the queue has no job under the id, otherwise the projected
status body. -/
inductive StatusOutcome
  | ok (body : JobStatusResponse)
  | notFound (error message : String)
deriving DecidableEq, Repr

/-- Queue store lookup (`downloadQueue.getJob(jobId)`): the store is a list
of id/record pairs. -/
def getJob (store : List (String × JobRecord)) (jobId : String) : Option JobRecord :=
  (store.find? (fun p => p.1 == jobId)).map (fun p => p.2)

/-- Status route handler (index.ts lines 723-769). -/
def jobStatusHandler (store : List (String × JobRecord)) (jobId : String) : StatusOutcome :=
  match getJob store jobId with
  | none => StatusOutcome.notFound "Not Found" ("Job " ++ jobId ++ " not found")
  | some r => StatusOutcome.ok (projectJob jobId r)

/-- Request validation of `/v1/download/initiate`
(`DownloadInitiateRequestSchema`, index.ts lines 192-200): 1 to 1000 file
ids, each between 10000 and 100000000 inclusive. -/
def ValidInitiateRequest (file_ids : List Nat) : Prop :=
  1 ≤ file_ids.length ∧ file_ids.length ≤ 1000 ∧
    ∀ id ∈ file_ids, 10000 ≤ id ∧ id ≤ 100000000

instance (file_ids : List Nat) : Decidable (ValidInitiateRequest file_ids) := by
  unfold ValidInitiateRequest
  infer_instance

/-- Body of a successful initiate response (index.ts lines 554-561). -/
structure InitiateResponse where
  jobId : String
  status : String
  totalFileIds : Nat
deriving DecidableEq, Repr

/-- Possible externally visible outcomes of the initiate route.  The
`duplicateJob` alternative exists only so that the spec's claimed
duplicate-id error can be stated; the handler has no branch producing it. -/
inductive InitiateOutcome
  | ok (body : InitiateResponse)
  | duplicateJob
deriving DecidableEq, Repr

/-- Effect of `downloadQueue.add(name, data, {jobId})` on the store: adding
under an id that already exists is a silent no-op of the queue library — it
neither replaces the job nor raises an error; otherwise a fresh queued
record is inserted. -/
def queueAdd (store : List (String × JobRecord)) (jobId : String) (file_ids : List Nat) :
    List (String × JobRecord) :=
  if (getJob store jobId).isSome then store
  else store ++ [(jobId, initRecord file_ids)]

/-- Initiate route handler (index.ts lines 534-562) for an already validated
body: add the job to the queue under the (server-generated) `jobId` and
synchronously return the queued response.  There is no duplicate-id branch;
the response is unconditional. -/
def downloadInitiateHandler (store : List (String × JobRecord)) (jobId : String)
    (file_ids : List Nat) : List (String × JobRecord) × InitiateOutcome :=
  (queueAdd store jobId file_ids,
    InitiateOutcome.ok
      { jobId := jobId, status := "queued", totalFileIds := file_ids.length })

/-! ## Fallible item checker and the queue's retry policy

The worker's own availability check is total, but the spec treats the item
checker as an injected capability that may raise.  `processItemsE` is the
same per-item loop with a checker returning `Except`: an error aborts the
whole processor run (the `await` rejects and the processor throws). -/

/-- The per-item loop with a fallible availability check; a checker error
propagates out of the loop. -/
def processItemsE (check : Nat → Except String Bool) (tokens : Nat → String) (n : Nat) :
    List Nat → Nat → LoopAcc → Except String LoopAcc
  | [], _, acc => Except.ok acc
  | fileId :: rest, i, acc =>
    match check fileId with
    | Except.error e => Except.error e
    | Except.ok available =>
      processItemsE check tokens n rest (i + 1) (applyItem tokens i fileId available acc)

/-- The processor with a fallible checker: a checker error makes the whole
job attempt fail; otherwise the usual result object is returned. -/
def processDownloadJobE (check : Nat → Except String Bool) (tokens : Nat → String)
    (file_ids : List Nat) : Except String DownloadJobResult :=
  match processItemsE check tokens file_ids.length file_ids 0 LoopAcc.init with
  | Except.error e => Except.error e
  | Except.ok acc => Except.ok (mkResult file_ids.length acc)

/-- Maximum attempt count configured on the queue
(`defaultJobOptions.attempts: 3`, queue.ts line 912). -/
def queueMaxAttempts : Nat := 3

/-- Base backoff delay configured on the queue
(`backoff: { type: "exponential", delay: 2000 }`, queue.ts lines 913-916). -/
def queueBackoffBaseMs : Nat := 2000

/-- Modelled from the spec: the exponential backoff delay before retry
`attempt + 1` — "base delay doubling per attempt" — as configured on the
queue (base 2000 ms).  The retry engine itself lives in the queue library,
not in the embedded sources. -/
def backoffDelayMs (attempt : Nat) : Nat := queueBackoffBaseMs * 2 ^ (attempt - 1)

/-- Terminal fate of a job under the retry policy. -/
inductive JobOutcome
  | finished (r : DownloadJobResult)
  | deadLetter (message : String) (payload : List Nat)
deriving DecidableEq, Repr

/-- What the retry engine did to one job: how many attempts ran, the backoff
delays waited between them, and the terminal outcome. -/
structure RetryTrace where
  attemptsMade : Nat
  delays : List Nat
  outcome : JobOutcome
deriving DecidableEq, Repr

/-- Modelled from the spec: the queue library's retry engine, which is not
part of the embedded sources (only its configuration is).  A processor error
does not finalize the job; while retry budget remains the engine waits the
exponential backoff delay and reruns the processor, and once the configured
maximum attempt count is exhausted the job is finalized as failed with a
message indicating retries were exhausted, retaining the identifying payload
(dead-letter semantics).  `fuel` is the number of retries still allowed
after the current attempt. -/
def retryRun (proc : Nat → Except String DownloadJobResult) (payload : List Nat) :
    Nat → Nat → RetryTrace
  | attempt, 0 =>
    match proc attempt with
    | Except.ok r =>
      { attemptsMade := attempt, delays := [], outcome := JobOutcome.finished r }
    | Except.error e =>
      { attemptsMade := attempt, delays := [],
        outcome := JobOutcome.deadLetter
          ("Retries exhausted after " ++ toString attempt ++ " attempts: " ++ e) payload }
  | attempt, fuel + 1 =>
    match proc attempt with
    | Except.ok r =>
      { attemptsMade := attempt, delays := [], outcome := JobOutcome.finished r }
    | Except.error _ =>
      let rest := retryRun proc payload (attempt + 1) fuel
      { attemptsMade := rest.attemptsMade,
        delays := backoffDelayMs attempt :: rest.delays,
        outcome := rest.outcome }

/-- Run one job under the configured retry policy, starting at attempt 1. -/
def runJobWithRetries (proc : Nat → Except String DownloadJobResult)
    (payload : List Nat) : RetryTrace :=
  retryRun proc payload 1 (queueMaxAttempts - 1)

/-! ## Trace order claimed by the spec -/

/-- Per-item event order as the spec's worker-loop sentence states it: the
item checker is invoked and its outcome recorded first, and the progress of
the item is reported afterwards.  Written from the spec's words, for
comparison with the trace of the embedded loop. -/
def specOrderEvents (n : Nat) : List Nat → Nat → List WorkerEvent
  | [], _ => []
  | fileId :: rest, i =>
    WorkerEvent.check fileId (mockAvailable fileId)
      :: WorkerEvent.updateProgress (progressAt i n)
      :: specOrderEvents n rest (i + 1)

/-! ## Concrete inputs for witnesses and counterexamples -/

/-- Concrete injected UUID-token sequence used on concrete inputs. -/
def tok (i : Nat) : String := "token-" ++ toString i

/-- Record of the job `[70001]` right after being claimed. -/
def rec70001a : JobRecord := { initRecord [70001] with state := BState.active }

/-- Record of the job `[70001]` after its single (unavailable) item. -/
def rec70001b : JobRecord := stepItem tok rec70001a

/-- Record of the job `[70001]` after finalization. -/
def rec70001c : JobRecord := finishRecord rec70001b

/-- Record of the job `[70000]` right after being claimed. -/
def rec70000a : JobRecord := { initRecord [70000] with state := BState.active }

/-- Record of the job `[70000]` after its single (available) item. -/
def rec70000b : JobRecord := stepItem tok rec70000a

/-- Record of the job `[70000]` after finalization. -/
def rec70000c : JobRecord := finishRecord rec70000b

/-! ## Lemmas about the per-item loop -/

/-- Each loop iteration increments exactly one of the two counters, so after
the loop the counters partition the item list. -/
theorem runItems_fst_counts (tokens : Nat → String) (n : Nat) (l : List Nat) (i : Nat)
    (acc : LoopAcc) :
    (runItems tokens n l i acc).1.successCount + (runItems tokens n l i acc).1.failedCount
      = acc.successCount + acc.failedCount + l.length := by
  induction l generalizing i acc with
  | nil => simp [runItems]
  | cons fileId rest ih =>
    simp only [runItems, List.length_cons]
    rw [ih]
    by_cases h : mockAvailable fileId <;>
      simp [stepItemAcc, applyItem, h] <;> omega

/-- The URLs accumulated by the loop are exactly one URL per available item,
in item order. -/
theorem runItems_fst_urls (tokens : Nat → String) (n : Nat) (l : List Nat) (i : Nat)
    (acc : LoopAcc) :
    (runItems tokens n l i acc).1.downloadUrls
      = acc.downloadUrls ++
          ((List.enumFrom i l).filter (fun p => mockAvailable p.2)).map
            (fun p => downloadUrl p.2 (tokens p.1)) := by
  induction l generalizing i acc with
  | nil => simp [runItems]
  | cons fileId rest ih =>
    simp only [runItems, List.enumFrom]
    rw [ih]
    by_cases h : mockAvailable fileId <;>
      simp [stepItemAcc, applyItem, h]

/-- The success counter counts exactly the available items. -/
theorem runItems_fst_success (tokens : Nat → String) (n : Nat) (l : List Nat) (i : Nat)
    (acc : LoopAcc) :
    (runItems tokens n l i acc).1.successCount
      = acc.successCount
          + ((List.enumFrom i l).filter (fun p => mockAvailable p.2)).length := by
  induction l generalizing i acc with
  | nil => simp [runItems]
  | cons fileId rest ih =>
    simp only [runItems, List.enumFrom]
    rw [ih]
    by_cases h : mockAvailable fileId <;>
      simp [stepItemAcc, applyItem, h] <;> omega

/-- The event trace of the loop: per item, first the progress report, then
the availability check. -/
theorem runItems_snd (tokens : Nat → String) (n : Nat) (l : List Nat) (i : Nat)
    (acc : LoopAcc) :
    (runItems tokens n l i acc).2
      = (List.enumFrom i l).flatMap (fun p =>
          [WorkerEvent.updateProgress (progressAt p.1 n),
           WorkerEvent.check p.2 (mockAvailable p.2)]) := by
  induction l generalizing i acc with
  | nil => simp [runItems]
  | cons fileId rest ih => simp [runItems, List.enumFrom, ih]

/-- Splitting the loop across a list append. -/
theorem runItems_fst_append (tokens : Nat → String) (n : Nat) (l₁ l₂ : List Nat) (i : Nat)
    (acc : LoopAcc) :
    (runItems tokens n (l₁ ++ l₂) i acc).1
      = (runItems tokens n l₂ (i + l₁.length) (runItems tokens n l₁ i acc).1).1 := by
  induction l₁ generalizing i acc with
  | nil => simp [runItems]
  | cons fileId rest ih =>
    rw [List.cons_append]
    simp only [runItems, List.length_cons]
    rw [ih]
    have h : i + 1 + rest.length = i + (rest.length + 1) := by omega
    rw [h]

/-- The loop over a single item is one accumulator update. -/
theorem runItems_fst_singleton (tokens : Nat → String) (n : Nat) (a i : Nat)
    (acc : LoopAcc) :
    (runItems tokens n [a] i acc).1 = stepItemAcc tokens i a acc := by
  simp [runItems]

/-- No item of an all-unavailable list passes the filter. -/
theorem enumFrom_filter_nil (l : List Nat) (i : Nat)
    (hfail : ∀ f ∈ l, mockAvailable f = false) :
    (List.enumFrom i l).filter (fun p => mockAvailable p.2) = [] := by
  induction l generalizing i with
  | nil => rfl
  | cons a rest ih =>
    have ha : mockAvailable a = false := hfail a (List.mem_cons_self a rest)
    simp [List.enumFrom, ha, ih (i + 1) (fun f hf => hfail f (List.mem_cons_of_mem a hf))]

/-! ## Invariants of the job state machine -/

/-- Invariant of every record reachable from a freshly created one: the
worker position never passes the item count, the ghost accumulator is the
loop run over the processed prefix, queued records are untouched, active
and queued records carry no return value, the recorded progress is the one
reported for the last processed item (0 before any item), and a completed
record holds exactly the processor's result; the failed state is never
entered because the processor returns instead of throwing. -/
def JobInv (tokens : Nat → String) (r : JobRecord) : Prop :=
  r.done ≤ r.fileIds.length ∧
  r.acc = (runItems tokens r.fileIds.length (r.fileIds.take r.done) 0 LoopAcc.init).1 ∧
  (r.state = BState.queued → r.done = 0 ∧ r.progress = 0 ∧ r.returnvalue = none) ∧
  (r.state = BState.active → r.returnvalue = none) ∧
  (r.done = 0 → r.progress = 0) ∧
  (0 < r.done → r.progress = progressAt (r.done - 1) r.fileIds.length) ∧
  (r.state = BState.completed →
    r.done = r.fileIds.length ∧
      r.returnvalue = some (processDownloadJob tokens r.fileIds)) ∧
  r.state ≠ BState.failed

/-- A freshly created record satisfies the invariant. -/
theorem inv_init (tokens : Nat → String) (fileIds : List Nat) :
    JobInv tokens (initRecord fileIds) := by
  refine ⟨Nat.zero_le _, ?_, ?_, ?_, ?_, ?_, ?_, ?_⟩ <;>
    simp [initRecord, runItems, LoopAcc.init]

/-- Every worker step preserves the invariant. -/
theorem inv_step (tokens : Nat → String) (r r' : JobRecord) (hinv : JobInv tokens r)
    (h : Step tokens r r') : JobInv tokens r' := by
  obtain ⟨h1, h2, h3, h4, h5, h6, h7, h8⟩ := hinv
  cases h with
  | claim hq =>
    obtain ⟨hd, hp, hrv⟩ := h3 hq
    refine ⟨h1, h2, ?_, ?_, h5, h6, ?_, ?_⟩
    · intro hq2
      exact absurd hq2 (by simp)
    · intro _
      exact hrv
    · intro hc
      exact absurd hc (by simp)
    · simp
  | item ha hlt =>
    refine ⟨?_, ?_, ?_, ?_, ?_, ?_, ?_, ?_⟩
    · show r.done + 1 ≤ r.fileIds.length
      omega
    · show stepItemAcc tokens r.done (r.fileIds.getD r.done 0) r.acc
        = (runItems tokens r.fileIds.length (r.fileIds.take (r.done + 1)) 0 LoopAcc.init).1
      rw [List.take_succ, List.getElem?_eq_getElem hlt, Option.toList_some,
        runItems_fst_append, runItems_fst_singleton, ← h2,
        List.length_take, Nat.min_eq_left h1, Nat.zero_add,
        List.getD_eq_getElem r.fileIds 0 hlt]
    · intro hq2
      exact absurd (ha.symm.trans hq2) (by decide)
    · intro _
      exact h4 ha
    · intro hzero
      exact absurd hzero (by simp [stepItem])
    · intro _
      show progressAt r.done r.fileIds.length
        = progressAt (r.done + 1 - 1) r.fileIds.length
      rfl
    · intro hc
      exact absurd (ha.symm.trans hc) (by decide)
    · intro hf
      exact absurd (ha.symm.trans hf) (by decide)
  | finish ha hd =>
    refine ⟨h1, h2, ?_, ?_, h5, h6, ?_, ?_⟩
    · intro hq2
      exact absurd hq2 (by simp [finishRecord])
    · intro hact
      exact absurd hact (by simp [finishRecord])
    · intro _
      refine ⟨hd, ?_⟩
      show some (mkResult r.fileIds.length r.acc)
        = some (processDownloadJob tokens r.fileIds)
      rw [h2, hd, List.take_length]
      rfl
    · simp [finishRecord]

/-- The invariant holds along every reachable record. -/
theorem inv_reach (tokens : Nat → String) (r r' : JobRecord) (hinv : JobInv tokens r)
    (h : Reachable tokens r r') : JobInv tokens r' := by
  induction h with
  | refl => exact hinv
  | tail hab hbc ih => exact inv_step tokens _ _ ih hbc

/-- Worker steps never change the job's item list. -/
theorem step_fileIds (tokens : Nat → String) (r r' : JobRecord) (h : Step tokens r r') :
    r'.fileIds = r.fileIds := by
  cases h <;> rfl

/-- Reachability never changes the job's item list. -/
theorem reach_fileIds (tokens : Nat → String) (r r' : JobRecord)
    (h : Reachable tokens r r') : r'.fileIds = r.fileIds := by
  induction h with
  | refl => rfl
  | tail hab hbc ih => rw [step_fileIds tokens _ _ hbc, ih]

/-- Reported progress is monotone in the item index. -/
theorem progressAt_mono (i j n : Nat) (h : i ≤ j) : progressAt i n ≤ progressAt j n := by
  unfold progressAt
  exact Nat.div_le_div_right (Nat.mul_le_mul_right 100 (by omega))

/-- One worker step never decreases the recorded progress. -/
theorem step_progress_mono (tokens : Nat → String) (r r' : JobRecord)
    (hinv : JobInv tokens r) (h : Step tokens r r') : r.progress ≤ r'.progress := by
  obtain ⟨h1, h2, h3, h4, h5, h6, h7, h8⟩ := hinv
  cases h with
  | claim hq => exact le_refl _
  | finish ha hd => exact le_refl _
  | item ha hlt =>
    show r.progress ≤ progressAt r.done r.fileIds.length
    rcases Nat.eq_zero_or_pos r.done with h0 | h0
    · rw [h5 h0]
      exact Nat.zero_le _
    · rw [h6 h0]
      exact progressAt_mono _ _ _ (by omega)

/-- The recorded progress is monotone along reachability. -/
theorem reach_progress_mono (tokens : Nat → String) (r r' : JobRecord)
    (hinv : JobInv tokens r) (h : Reachable tokens r r') : r.progress ≤ r'.progress := by
  induction h with
  | refl => exact le_refl _
  | tail hab hbc ih =>
    exact le_trans ih (step_progress_mono tokens _ _ (inv_reach tokens _ _ hinv hab) hbc)

/-- A terminal record of a non-empty job carries progress 100. -/
theorem terminal_progress_100 (tokens : Nat → String) (fileIds : List Nat)
    (hne : fileIds ≠ []) (r : JobRecord)
    (hreach : Reachable tokens (initRecord fileIds) r)
    (hterm : r.state = BState.completed ∨ r.state = BState.failed) :
    r.progress = 100 := by
  have hids : r.fileIds = fileIds := reach_fileIds tokens _ _ hreach
  have hinv := inv_reach tokens _ _ (inv_init tokens fileIds) hreach
  obtain ⟨h1, h2, h3, h4, h5, h6, h7, h8⟩ := hinv
  rcases hterm with hc | hf
  · obtain ⟨hd, _⟩ := h7 hc
    have hlen : 0 < fileIds.length := List.length_pos.mpr hne
    have hpos : 0 < r.done := by rw [hd, hids]; exact hlen
    rw [h6 hpos, hd, hids]
    unfold progressAt
    rw [Nat.sub_add_cancel hlen, Nat.mul_comm, Nat.mul_div_cancel 100 hlen]
  · exact absurd hf h8

/-! ## Claim theorems -/

/-- C2: for every job, after the worker's per-job processing loop finishes,
successCount + failedCount equals the number of items exactly — each
iteration increments exactly one of the two counters. -/
theorem C2_counts_partition (tokens : Nat → String) (file_ids : List Nat) :
    (processDownloadJob tokens file_ids).successCount
      + (processDownloadJob tokens file_ids).failedCount = file_ids.length := by
  show (runItems tokens file_ids.length file_ids 0 LoopAcc.init).1.successCount
      + (runItems tokens file_ids.length file_ids 0 LoopAcc.init).1.failedCount
      = file_ids.length
  rw [runItems_fst_counts]
  simp [LoopAcc.init]

/-- C3 (counterexample): the claim says each iteration invokes the checker
and records the outcome before reporting the recomputed progress, but on the
one-item job [70001] the worker's event trace reports progress first and
checks afterwards, differing from the claimed checker-first trace. -/
theorem C3_counterexample_order :
    workerEvents tok [70001]
        = [WorkerEvent.updateProgress 100, WorkerEvent.check 70001 false] ∧
    specOrderEvents 1 [70001] 0
        = [WorkerEvent.check 70001 false, WorkerEvent.updateProgress 100] ∧
    workerEvents tok [70001] ≠ specOrderEvents 1 [70001] 0 := by
  decide

/-- C3 (amended): for item i of n (0-based), the worker first recomputes
progress = floor(((i+1)/n)*100) and reports it via updateProgress, and then
invokes the item checker and records success or failure — in that order for
each item. -/
theorem C3_amended_order (tokens : Nat → String) (file_ids : List Nat) :
    workerEvents tokens file_ids
      = (List.enumFrom 0 file_ids).flatMap (fun p =>
          [WorkerEvent.updateProgress (progressAt p.1 file_ids.length),
           WorkerEvent.check p.2 (mockAvailable p.2)]) :=
  runItems_snd tokens file_ids.length file_ids 0 LoopAcc.init

/-- C10: the result's downloadUrls field is present exactly when
successCount > 0, and when present holds exactly successCount URLs, one per
available item, in item order. -/
theorem C10_downloadUrls (tokens : Nat → String) (file_ids : List Nat) :
    ((processDownloadJob tokens file_ids).downloadUrls.isSome
        ↔ 0 < (processDownloadJob tokens file_ids).successCount) ∧
    (∀ us, (processDownloadJob tokens file_ids).downloadUrls = some us →
      us.length = (processDownloadJob tokens file_ids).successCount ∧
      us = ((List.enumFrom 0 file_ids).filter (fun p => mockAvailable p.2)).map
            (fun p => downloadUrl p.2 (tokens p.1))) := by
  have hsuc := runItems_fst_success tokens file_ids.length file_ids 0 LoopAcc.init
  have hurl := runItems_fst_urls tokens file_ids.length file_ids 0 LoopAcc.init
  simp only [processDownloadJob, mkResult]
  constructor
  · by_cases h : (runItems tokens file_ids.length file_ids 0 LoopAcc.init).1.successCount > 0 <;>
      simp [h]
  · intro us hus
    by_cases h : (runItems tokens file_ids.length file_ids 0 LoopAcc.init).1.successCount > 0
    · rw [if_pos h] at hus
      obtain rfl :
          (runItems tokens file_ids.length file_ids 0 LoopAcc.init).1.downloadUrls = us :=
        Option.some.inj hus
      constructor
      · rw [hurl, hsuc]
        simp [LoopAcc.init]
      · rw [hurl]
        simp [LoopAcc.init]
    · rw [if_neg h] at hus
      cases hus

/-- Witness for C10 at the one-item available job [70000]. -/
theorem C10_downloadUrls_witness :
    (processDownloadJob tok [70000]).downloadUrls = some [downloadUrl 70000 (tok 0)] ∧
    ([downloadUrl 70000 (tok 0)].length = (processDownloadJob tok [70000]).successCount ∧
      [downloadUrl 70000 (tok 0)]
        = ((List.enumFrom 0 [70000]).filter (fun p => mockAvailable p.2)).map
            (fun p => downloadUrl p.2 (tok p.1))) :=
  ⟨by decide, (C10_downloadUrls tok [70000]).2 [downloadUrl 70000 (tok 0)] (by decide)⟩

/-- C6: polling an id for which the queue holds no job yields the 404-style
not-found outcome and never a status body. -/
theorem C6_unknown_id_not_found (store : List (String × JobRecord)) (jobId : String)
    (h : ∀ p ∈ store, p.1 ≠ jobId) :
    jobStatusHandler store jobId
        = StatusOutcome.notFound "Not Found" ("Job " ++ jobId ++ " not found") ∧
    ∀ b, jobStatusHandler store jobId ≠ StatusOutcome.ok b := by
  have hfind : List.find? (fun p => p.1 == jobId) store = none := by
    rw [List.find?_eq_none]
    intro p hp
    simpa using h p hp
  have hget : getJob store jobId = none := by
    unfold getJob
    rw [hfind]
    rfl
  constructor
  · unfold jobStatusHandler
    rw [hget]
  · intro b hb
    unfold jobStatusHandler at hb
    rw [hget] at hb
    cases hb

/-- Witness for C6: a store holding only another job yields not-found. -/
theorem C6_witness :
    jobStatusHandler [("job-a", initRecord [70000])] "job-b"
        = StatusOutcome.notFound "Not Found" ("Job " ++ "job-b" ++ " not found") :=
  (C6_unknown_id_not_found [("job-a", initRecord [70000])] "job-b" (by decide)).1

/-- C7: a submission with a valid item list succeeds — the handler
synchronously returns the queued response with the new job id and the total
item count, and when the id is fresh the queued record lands in the store
and immediately projects as queued with progress 0. -/
theorem C7_initiate_valid (store : List (String × JobRecord)) (jobId : String)
    (file_ids : List Nat) (hv : ValidInitiateRequest file_ids) :
    (downloadInitiateHandler store jobId file_ids).2
        = InitiateOutcome.ok
            { jobId := jobId, status := "queued", totalFileIds := file_ids.length } ∧
    1 ≤ file_ids.length ∧
    (getJob store jobId = none →
      getJob (downloadInitiateHandler store jobId file_ids).1 jobId
          = some (initRecord file_ids) ∧
      (projectJob jobId (initRecord file_ids)).status = "queued" ∧
      (projectJob jobId (initRecord file_ids)).progress = 0 ∧
      (projectJob jobId (initRecord file_ids)).result = none) := by
  refine ⟨rfl, hv.1, ?_⟩
  intro hnone
  refine ⟨?_, by simp [projectJob, initRecord], rfl, by simp [projectJob, initRecord]⟩
  have hq : queueAdd store jobId file_ids = store ++ [(jobId, initRecord file_ids)] := by
    unfold queueAdd
    rw [hnone]
    rfl
  show getJob (queueAdd store jobId file_ids) jobId = some (initRecord file_ids)
  rw [hq]
  unfold getJob at hnone ⊢
  rw [List.find?_append]
  cases hfind : List.find? (fun p => p.1 == jobId) store with
  | some v =>
    rw [hfind] at hnone
    simp at hnone
  | none =>
    simp [List.find?]

/-- Witness for C7 on an empty store. -/
theorem C7_witness :
    (downloadInitiateHandler [] "job-1" [70000]).2
        = InitiateOutcome.ok { jobId := "job-1", status := "queued", totalFileIds := 1 } ∧
    getJob (downloadInitiateHandler [] "job-1" [70000]).1 "job-1"
        = some (initRecord [70000]) := by
  have h := C7_initiate_valid [] "job-1" [70000] (by decide)
  exact ⟨h.1, (h.2.2 (by decide)).1⟩

/-- Store state after a first successful create of id "job-1". -/
def storeAfterFirst : List (String × JobRecord) :=
  (downloadInitiateHandler [] "job-1" [70000]).1

/-- C8 (counterexample): resubmitting an id that already exists in the store
does not report a DuplicateJob error — the handler returns the normal queued
success response. -/
theorem C8_counterexample_duplicate :
    getJob storeAfterFirst "job-1" = some (initRecord [70000]) ∧
    (downloadInitiateHandler storeAfterFirst "job-1" [70007]).2
        = InitiateOutcome.ok { jobId := "job-1", status := "queued", totalFileIds := 1 } ∧
    (downloadInitiateHandler storeAfterFirst "job-1" [70007]).2
        ≠ InitiateOutcome.duplicateJob := by
  decide

/-- C8 (amended): adding under an id that already exists leaves the store
unchanged (no second record is inserted), but the submitter receives the
normal queued success response rather than any DuplicateJob error —
duplicate protection is a silent queue-library no-op, and job ids are
server-generated, not caller-supplied. -/
theorem C8_amended_silent_dedupe (store : List (String × JobRecord)) (jobId : String)
    (file_ids : List Nat) (h : (getJob store jobId).isSome = true) :
    (downloadInitiateHandler store jobId file_ids).1 = store ∧
    (downloadInitiateHandler store jobId file_ids).2
        = InitiateOutcome.ok
            { jobId := jobId, status := "queued", totalFileIds := file_ids.length } ∧
    (downloadInitiateHandler store jobId file_ids).2 ≠ InitiateOutcome.duplicateJob := by
  refine ⟨?_, rfl, by simp [downloadInitiateHandler]⟩
  show queueAdd store jobId file_ids = store
  simp [queueAdd, h]

/-- Witness for the amended C8 on a store already holding the id. -/
theorem C8_amended_witness :
    (downloadInitiateHandler storeAfterFirst "job-1" [70007]).1 = storeAfterFirst :=
  (C8_amended_silent_dedupe storeAfterFirst "job-1" [70007] (by decide)).1

/-- C5: the status projection is an exhaustive mapping of the queue state —
Completed to "completed" with the record's result, Failed to "failed" with
the record's result, Active to "processing" with the record's progress and
no result, Queued to "queued" with no result (and progress 0 on every
reachable queued record), and no non-terminal state ever exposes a result. -/
theorem C5_projection_exhaustive (jobId : String) (r : JobRecord) :
    (r.state = BState.completed →
      (projectJob jobId r).status = "completed" ∧
        (projectJob jobId r).result = r.returnvalue) ∧
    (r.state = BState.failed →
      (projectJob jobId r).status = "failed" ∧
        (projectJob jobId r).result = r.returnvalue) ∧
    (r.state = BState.active →
      (projectJob jobId r).status = "processing" ∧
        (projectJob jobId r).progress = r.progress ∧
        (projectJob jobId r).result = none) ∧
    (r.state = BState.queued →
      (projectJob jobId r).status = "queued" ∧ (projectJob jobId r).result = none ∧
        ∀ (tokens : Nat → String) (fileIds : List Nat),
          Reachable tokens (initRecord fileIds) r → (projectJob jobId r).progress = 0) ∧
    ((r.state = BState.queued ∨ r.state = BState.active) →
      (projectJob jobId r).result = none) := by
  refine ⟨?_, ?_, ?_, ?_, ?_⟩
  · intro hs
    exact ⟨by simp [projectJob, hs], by simp [projectJob, hs]⟩
  · intro hs
    exact ⟨by simp [projectJob, hs], by simp [projectJob, hs]⟩
  · intro hs
    exact ⟨by simp [projectJob, hs], rfl, by simp [projectJob, hs]⟩
  · intro hs
    refine ⟨by simp [projectJob, hs], by simp [projectJob, hs], ?_⟩
    intro tokens fileIds hreach
    have hinv := inv_reach tokens _ _ (inv_init tokens fileIds) hreach
    show r.progress = 0
    exact (hinv.2.2.1 hs).2.1
  · rintro (hs | hs) <;> simp [projectJob, hs]

/-- Witness for C5 on a freshly created queued record. -/
theorem C5_witness :
    (projectJob "job-w" (initRecord [70000])).status = "queued" ∧
    (projectJob "job-w" (initRecord [70000])).result = none ∧
    (projectJob "job-w" (initRecord [70000])).progress = 0 := by
  have h := (C5_projection_exhaustive "job-w" (initRecord [70000])).2.2.2.1 rfl
  exact ⟨h.1, h.2.1, h.2.2 tok [70000] Relation.ReflTransGen.refl⟩

/-- C4: along one job's lifecycle, the progress reported by sequential polls
is monotonically non-decreasing, and once the job is terminal the reported
progress equals 100 (for non-empty jobs). -/
theorem C4_progress_monotone_terminal_100 (tokens : Nat → String) (jobId : String)
    (fileIds : List Nat) (hne : fileIds ≠ []) (r r2 : JobRecord)
    (h1 : Reachable tokens (initRecord fileIds) r) (h2 : Reachable tokens r r2) :
    (projectJob jobId r).progress ≤ (projectJob jobId r2).progress ∧
    ((r2.state = BState.completed ∨ r2.state = BState.failed) →
      (projectJob jobId r2).progress = 100) := by
  have hinv := inv_reach tokens _ _ (inv_init tokens fileIds) h1
  constructor
  · show r.progress ≤ r2.progress
    exact reach_progress_mono tokens _ _ hinv h2
  · intro hterm
    show r2.progress = 100
    exact terminal_progress_100 tokens fileIds hne r2
      (Relation.ReflTransGen.trans h1 h2) hterm

/-- Concrete worker run of the job [70000] from creation to completion. -/
theorem reach_rec70000c : Reachable tok (initRecord [70000]) rec70000c :=
  Relation.ReflTransGen.head (Step.claim _ rfl)
    (Relation.ReflTransGen.head (Step.item _ rfl (by decide))
      (Relation.ReflTransGen.single (Step.finish _ rfl (by decide))))

/-- Witness for C4 on the completed run of [70000]. -/
theorem C4_witness :
    ([70000] : List Nat) ≠ [] ∧
    (projectJob "job-w4" (initRecord [70000])).progress
        ≤ (projectJob "job-w4" rec70000c).progress ∧
    (projectJob "job-w4" rec70000c).progress = 100 := by
  have h := C4_progress_monotone_terminal_100 tok "job-w4" [70000] (by decide)
    (initRecord [70000]) rec70000c Relation.ReflTransGen.refl reach_rec70000c
  exact ⟨by decide, h.1, h.2 (Or.inl rfl)⟩

/-- Concrete worker run of the job [70001] from creation to finalization. -/
theorem reach_rec70001c : Reachable tok (initRecord [70001]) rec70001c :=
  Relation.ReflTransGen.head (Step.claim _ rfl)
    (Relation.ReflTransGen.head (Step.item _ rfl (by decide))
      (Relation.ReflTransGen.single (Step.finish _ rfl (by decide))))

/-- C1 (counterexample): the job [70001] — whose only item fails the mod-7
check — reaches a terminal record from which no further step is possible,
and a poll of that record reports external status "completed" (with the
failed result attached), not the "failed" status the claim asserts; its
result still has successCount 0 and failedCount 1. -/
theorem C1_counterexample_poll_completed :
    Reachable tok (initRecord [70001]) rec70001c ∧
    (∀ r2, ¬ Step tok rec70001c r2) ∧
    (processDownloadJob tok [70001]).successCount = 0 ∧
    (processDownloadJob tok [70001]).failedCount = 1 ∧
    jobStatusHandler [("job-70001", rec70001c)] "job-70001"
        = StatusOutcome.ok (projectJob "job-70001" rec70001c) ∧
    (projectJob "job-70001" rec70001c).status = "completed" ∧
    (projectJob "job-70001" rec70001c).status ≠ "failed" := by
  refine ⟨reach_rec70001c, ?_, by decide, by decide, by decide, by decide, by decide⟩
  intro r2 hstep
  cases hstep with
  | claim hq => exact absurd hq (by decide)
  | item ha hlt => exact absurd ha (by decide)
  | finish ha hd => exact absurd ha (by decide)

/-- C1 (amended): a job all of whose items fail the availability check is
finalized with a result marked failed — successCount 0, failedCount n, and
a message explaining total failure — but since the worker returns that
result instead of throwing, the queue marks the job completed, and a
subsequent poll reports terminal external status "completed" with the
failed result attached. -/
theorem C1_amended_all_failed (tokens : Nat → String) (jobId : String)
    (fileIds : List Nat) (hne : fileIds ≠ [])
    (hfail : ∀ f ∈ fileIds, mockAvailable f = false)
    (r : JobRecord) (hreach : Reachable tokens (initRecord fileIds) r)
    (hterm : r.state = BState.completed ∨ r.state = BState.failed) :
    (processDownloadJob tokens fileIds).status = ResultStatus.failed ∧
    (processDownloadJob tokens fileIds).successCount = 0 ∧
    (processDownloadJob tokens fileIds).failedCount = fileIds.length ∧
    (processDownloadJob tokens fileIds).message
        = "All " ++ toString fileIds.length ++ " files failed to process" ∧
    (projectJob jobId r).status = "completed" ∧
    (projectJob jobId r).result = some (processDownloadJob tokens fileIds) := by
  have hs0 : (runItems tokens fileIds.length fileIds 0 LoopAcc.init).1.successCount = 0 := by
    rw [runItems_fst_success, enumFrom_filter_nil fileIds 0 hfail]
    rfl
  have hcnt : (runItems tokens fileIds.length fileIds 0 LoopAcc.init).1.successCount
      + (runItems tokens fileIds.length fileIds 0 LoopAcc.init).1.failedCount
      = fileIds.length := by
    rw [runItems_fst_counts]
    simp [LoopAcc.init]
  have hinv := inv_reach tokens _ _ (inv_init tokens fileIds) hreach
  have hids : r.fileIds = fileIds := reach_fileIds tokens _ _ hreach
  have hc : r.state = BState.completed := by
    rcases hterm with h | h
    · exact h
    · exact absurd h hinv.2.2.2.2.2.2.2
  obtain ⟨hd, hrv⟩ := hinv.2.2.2.2.2.2.1 hc
  refine ⟨?_, hs0, ?_, ?_, ?_, ?_⟩
  · simp [processDownloadJob, mkResult, hs0]
  · show (runItems tokens fileIds.length fileIds 0 LoopAcc.init).1.failedCount
        = fileIds.length
    omega
  · simp [processDownloadJob, mkResult, hs0]
  · simp [projectJob, hc]
  · rw [hids] at hrv
    simp [projectJob, hc, hrv]

/-- Witness for the amended C1 on the finalized run of [70001]. -/
theorem C1_amended_witness :
    (processDownloadJob tok [70001]).successCount = 0 ∧
    (processDownloadJob tok [70001]).failedCount = 1 ∧
    (projectJob "job-1c" rec70001c).status = "completed" := by
  have h := C1_amended_all_failed tok "job-1c" [70001] (by decide) (by decide)
    rec70001c reach_rec70001c (Or.inl rfl)
  exact ⟨h.2.1, h.2.2.1, h.2.2.2.2.1⟩

/-- A checker that always raises makes every processor attempt on a
non-empty job raise. -/
theorem processDownloadJobE_error (check : Nat → Except String Bool) (err : String)
    (tokens : Nat → String) (file_ids : List Nat) (hne : file_ids ≠ [])
    (hck : ∀ f, check f = Except.error err) :
    processDownloadJobE check tokens file_ids = Except.error err := by
  cases file_ids with
  | nil => exact absurd rfl hne
  | cons a rest =>
    unfold processDownloadJobE processItemsE
    rw [hck a]

/-- C9: with the configured retry policy (attempts 3, exponential backoff
with base 2000 ms), a job whose item checker raises on every attempt is run
exactly 3 times — no more, no fewer — with doubling backoff delays 2000 ms
and 4000 ms between attempts, and is then finalized as failed with a
retries-exhausted message while its identifying payload is retained. -/
theorem C9_retries_exhausted (check : Nat → Except String Bool) (err : String)
    (tokens : Nat → String) (file_ids : List Nat) (hne : file_ids ≠ [])
    (hck : ∀ f, check f = Except.error err) :
    (runJobWithRetries (fun _ => processDownloadJobE check tokens file_ids)
        file_ids).attemptsMade = queueMaxAttempts ∧
    (runJobWithRetries (fun _ => processDownloadJobE check tokens file_ids)
        file_ids).delays = [2000, 4000] ∧
    (runJobWithRetries (fun _ => processDownloadJobE check tokens file_ids)
        file_ids).outcome
      = JobOutcome.deadLetter
          ("Retries exhausted after " ++ toString queueMaxAttempts ++ " attempts: " ++ err)
          file_ids := by
  have hp : processDownloadJobE check tokens file_ids = Except.error err :=
    processDownloadJobE_error check err tokens file_ids hne hck
  unfold runJobWithRetries queueMaxAttempts
  refine ⟨?_, ?_, ?_⟩ <;>
    simp [retryRun, hp, backoffDelayMs, queueBackoffBaseMs]

/-- Witness for C9 with a checker that always raises "boom" on the job
[70000]. -/
theorem C9_witness :
    (runJobWithRetries
        (fun _ => processDownloadJobE (fun _ => Except.error "boom") tok [70000])
        [70000]).attemptsMade = 3 ∧
    (runJobWithRetries
        (fun _ => processDownloadJobE (fun _ => Except.error "boom") tok [70000])
        [70000]).delays = [2000, 4000] := by
  have h := C9_retries_exhausted (fun _ => Except.error "boom") "boom" tok [70000]
    (by decide) (fun f => rfl)
  exact ⟨h.1, h.2.1⟩
